import Mathlib

/-! GSoC15 drivers: the navigation-message bus and the satellite scan.

A shallow embedding of the three driver programs of the repository

* `Module_BW_CF/BW_CF.cpp`
* `Satellites/Number_of_Satellites.cc`
* `Sample_Format/Sample_Format.cc`

The namespace-scope container declarations of `BW_CF.cpp` (lines 55-91) are
embedded as data and compared with the routing table of the specification;
the lifetime of the instances is a trace of events around the calls of
`control_thread->run()`; the two container templates, whose headers are not
among the sources, follow the specification; the scan loop and the position
lookup are embedded as functions on the variables of `main`; the bandwidth of
`BW_CF.cpp` is embedded over the rationals with the rounding to `double` as a
parameter.
-/

namespace GSoC15

/-! ## The declared containers of `BW_CF.cpp` -/

/-- The two container templates that `BW_CF.cpp` instantiates. -/
inductive Container where
  | concurrent_queue
  | concurrent_map
  deriving DecidableEq, Repr

/-- The payload types that appear as template arguments in lines 56-91. -/
inductive Payload where
  | Gps_Ephemeris
  | Gps_Iono
  | Gps_Utc_Model
  | Gps_Almanac
  | Gps_Acq_Assist
  | Gps_Ref_Location
  | Gps_Ref_Time
  | Galileo_Ephemeris
  | Galileo_Iono
  | Galileo_Utc_Model
  | Galileo_Almanac
  | Sbas_Raw_Msg
  | Sbas_Ionosphere_Correction
  | Sbas_Satellite_Correction
  | Sbas_Ephemeris
  deriving DecidableEq, Repr

/-- The three satellite systems; they head the three comment blocks
`// For GPS NAVIGATION`, `// For GALILEO NAVIGATION`, `// For SBAS CORRECTIONS`. -/
inductive Constellation where
  | GPS
  | Galileo
  | SBAS
  deriving DecidableEq, Repr

/-- One namespace-scope declaration `container<payload> name;`, together with
the comment block (`group`) under which it is written. -/
structure Decl where
  container : Container
  payload : Payload
  name : String
  group : Constellation
  deriving DecidableEq, Repr

/-- The declarations of `BW_CF.cpp`, lines 56-91, in source order. -/
def declarations : List Decl :=
  [ ⟨.concurrent_queue, .Gps_Ephemeris, "global_gps_ephemeris_queue", .GPS⟩,
    ⟨.concurrent_queue, .Gps_Iono, "global_gps_iono_queue", .GPS⟩,
    ⟨.concurrent_queue, .Gps_Utc_Model, "global_gps_utc_model_queue", .GPS⟩,
    ⟨.concurrent_queue, .Gps_Almanac, "global_gps_almanac_queue", .GPS⟩,
    ⟨.concurrent_queue, .Gps_Acq_Assist, "global_gps_acq_assist_queue", .GPS⟩,
    ⟨.concurrent_queue, .Gps_Ref_Location, "global_gps_ref_location_queue", .GPS⟩,
    ⟨.concurrent_queue, .Gps_Ref_Time, "global_gps_ref_time_queue", .GPS⟩,
    ⟨.concurrent_map, .Gps_Ephemeris, "global_gps_ephemeris_map", .GPS⟩,
    ⟨.concurrent_map, .Gps_Iono, "global_gps_iono_map", .GPS⟩,
    ⟨.concurrent_map, .Gps_Utc_Model, "global_gps_utc_model_map", .GPS⟩,
    ⟨.concurrent_map, .Gps_Almanac, "global_gps_almanac_map", .GPS⟩,
    ⟨.concurrent_map, .Gps_Acq_Assist, "global_gps_acq_assist_map", .GPS⟩,
    ⟨.concurrent_map, .Gps_Ref_Time, "global_gps_ref_time_map", .GPS⟩,
    ⟨.concurrent_map, .Gps_Ref_Location, "global_gps_ref_location_map", .GPS⟩,
    ⟨.concurrent_queue, .Galileo_Ephemeris, "global_galileo_ephemeris_queue", .Galileo⟩,
    ⟨.concurrent_queue, .Galileo_Iono, "global_galileo_iono_queue", .Galileo⟩,
    ⟨.concurrent_queue, .Galileo_Utc_Model, "global_galileo_utc_model_queue", .Galileo⟩,
    ⟨.concurrent_queue, .Galileo_Almanac, "global_galileo_almanac_queue", .Galileo⟩,
    ⟨.concurrent_map, .Galileo_Ephemeris, "global_galileo_ephemeris_map", .Galileo⟩,
    ⟨.concurrent_map, .Galileo_Iono, "global_galileo_iono_map", .Galileo⟩,
    ⟨.concurrent_map, .Galileo_Utc_Model, "global_galileo_utc_model_map", .Galileo⟩,
    ⟨.concurrent_map, .Galileo_Almanac, "global_galileo_almanac_map", .Galileo⟩,
    ⟨.concurrent_queue, .Sbas_Raw_Msg, "global_sbas_raw_msg_queue", .SBAS⟩,
    ⟨.concurrent_queue, .Sbas_Ionosphere_Correction, "global_sbas_iono_queue", .SBAS⟩,
    ⟨.concurrent_queue, .Sbas_Satellite_Correction, "global_sbas_sat_corr_queue", .SBAS⟩,
    ⟨.concurrent_queue, .Sbas_Ephemeris, "global_sbas_ephemeris_queue", .SBAS⟩,
    ⟨.concurrent_map, .Sbas_Ionosphere_Correction, "global_sbas_iono_map", .SBAS⟩,
    ⟨.concurrent_map, .Sbas_Satellite_Correction, "global_sbas_sat_corr_map", .SBAS⟩,
    ⟨.concurrent_map, .Sbas_Ephemeris, "global_sbas_ephemeris_map", .SBAS⟩ ]

/-- The instances of container `c` whose payload type is `p`. -/
def instancesOf (c : Container) (p : Payload) : List Decl :=
  declarations.filter (fun d => decide (d.container = c) && decide (d.payload = p))

/-- The constellation a payload type belongs to (the system named at the front
of the type and of the header that defines it). -/
def Payload.constellation : Payload → Constellation
  | .Gps_Ephemeris => .GPS
  | .Gps_Iono => .GPS
  | .Gps_Utc_Model => .GPS
  | .Gps_Almanac => .GPS
  | .Gps_Acq_Assist => .GPS
  | .Gps_Ref_Location => .GPS
  | .Gps_Ref_Time => .GPS
  | .Galileo_Ephemeris => .Galileo
  | .Galileo_Iono => .Galileo
  | .Galileo_Utc_Model => .Galileo
  | .Galileo_Almanac => .Galileo
  | .Sbas_Raw_Msg => .SBAS
  | .Sbas_Ionosphere_Correction => .SBAS
  | .Sbas_Satellite_Correction => .SBAS
  | .Sbas_Ephemeris => .SBAS

/-- An instance `container<T> x;` takes a payload exactly when the payload has
type `T`: C++ rejects any other argument at compile time. -/
def Decl.accepts (d : Decl) (p : Payload) : Bool :=
  decide (d.payload = p)

/-! ## The routing table of the specification -/

/-- The message kinds of the specification's data model. -/
inductive Kind where
  | Ephemeris
  | Iono
  | UtcModel
  | Almanac
  | AcqAssist
  | RefLocation
  | RefTime
  | RawMsg
  | SatelliteCorrection
  deriving DecidableEq, Repr

/-- One cell entry of the routing table: the pair and the container the table
routes it to. -/
structure Route where
  constellation : Constellation
  kind : Kind
  container : Container
  deriving DecidableEq, Repr

/-- The routing table, written after the specification (section 4.3): the
second column lists the kinds routed to a map, the third those routed to a
queue. -/
def routingTable : List Route :=
  [ ⟨.GPS, .Ephemeris, .concurrent_map⟩,
    ⟨.GPS, .Iono, .concurrent_map⟩,
    ⟨.GPS, .UtcModel, .concurrent_map⟩,
    ⟨.GPS, .Almanac, .concurrent_map⟩,
    ⟨.GPS, .RefLocation, .concurrent_map⟩,
    ⟨.GPS, .RefTime, .concurrent_map⟩,
    ⟨.GPS, .AcqAssist, .concurrent_queue⟩,
    ⟨.Galileo, .Ephemeris, .concurrent_map⟩,
    ⟨.Galileo, .Iono, .concurrent_map⟩,
    ⟨.Galileo, .UtcModel, .concurrent_map⟩,
    ⟨.Galileo, .Almanac, .concurrent_map⟩,
    ⟨.SBAS, .Iono, .concurrent_map⟩,
    ⟨.SBAS, .SatelliteCorrection, .concurrent_map⟩,
    ⟨.SBAS, .Ephemeris, .concurrent_map⟩,
    ⟨.SBAS, .RawMsg, .concurrent_queue⟩ ]

/-- The (constellation, kind) pair that a payload type of the code carries. -/
def Payload.route : Payload → Constellation × Kind
  | .Gps_Ephemeris => (.GPS, .Ephemeris)
  | .Gps_Iono => (.GPS, .Iono)
  | .Gps_Utc_Model => (.GPS, .UtcModel)
  | .Gps_Almanac => (.GPS, .Almanac)
  | .Gps_Acq_Assist => (.GPS, .AcqAssist)
  | .Gps_Ref_Location => (.GPS, .RefLocation)
  | .Gps_Ref_Time => (.GPS, .RefTime)
  | .Galileo_Ephemeris => (.Galileo, .Ephemeris)
  | .Galileo_Iono => (.Galileo, .Iono)
  | .Galileo_Utc_Model => (.Galileo, .UtcModel)
  | .Galileo_Almanac => (.Galileo, .Almanac)
  | .Sbas_Raw_Msg => (.SBAS, .RawMsg)
  | .Sbas_Ionosphere_Correction => (.SBAS, .Iono)
  | .Sbas_Satellite_Correction => (.SBAS, .SatelliteCorrection)
  | .Sbas_Ephemeris => (.SBAS, .Ephemeris)

/-- The declared instances of container `c` for the pair `(con, k)`. -/
def instancesFor (c : Container) (con : Constellation) (k : Kind) : List Decl :=
  declarations.filter (fun d => decide (d.container = c) && decide (d.payload.route = (con, k)))

/-- A declaration lies inside the routing table when the table routes the pair
of its payload type to its container. -/
def Decl.inTable (d : Decl) : Bool :=
  routingTable.any (fun r =>
    decide (r.container = d.container) && decide ((r.constellation, r.kind) = d.payload.route))

/-- A declaration is for a pair of the routing table, whatever its container. -/
def Decl.pairInTable (d : Decl) : Bool :=
  routingTable.any (fun r => decide ((r.constellation, r.kind) = d.payload.route))

/-- The number of maps the code declares for a pair of the table: one, except
none for SBAS RawMsg. -/
def declaredMaps (con : Constellation) (k : Kind) : Nat :=
  if (con, k) = (Constellation.SBAS, Kind.RawMsg) then 0 else 1

/-! ## Lifetime of the instances around `control_thread->run()`

The instances are objects of static storage duration declared at namespace
scope in the translation unit of `main`: C++ constructs them, in declaration
order, before the first statement of `main`, and destroys them in reverse order
after `main` has returned. `LOG(FATAL)` in a catch clause ends the process
without returning from `main`. -/

/-- Modelled from the spec: the policy of a bounded queue that is full
(section 7, `CapacityExceeded`: block, drop-oldest, reject). The header
`concurrent_queue.h` is missing from the sources. -/
inductive OverflowPolicy where
  | block
  | dropOldest
  | reject
  deriving DecidableEq, Repr

/-- Modelled from the spec: the state of one `TypedQueue<T>` instance
(`concurrent_queue.h` is missing). `items` holds the queued items, oldest
first; `capacity` is `none` for an unbounded queue; `dropped` is the counter
that drop-oldest increments. -/
structure TypedQueue (α : Type) where
  items : List α
  capacity : Option Nat
  policy : OverflowPolicy
  dropped : Nat
  deriving DecidableEq, Repr

/-- Modelled from the spec: what a `push` reports (`concurrent_queue.h` is
missing). `blocked`: the producer waits and nothing is enqueued yet. -/
inductive PushStatus where
  | enqueued
  | droppedOldest
  | rejected
  | blocked
  deriving DecidableEq, Repr

namespace TypedQueue

variable {α : Type}

/-- Modelled from the spec: a queue as the drivers declare it,
`concurrent_queue<T> q;` with no capacity argument (`concurrent_queue.h` is
missing): empty and unbounded; the policy is the default, drop-oldest. -/
def declared : TypedQueue α :=
  ⟨[], none, .dropOldest, 0⟩

/-- Modelled from the spec: an empty bounded queue of the given capacity and
policy (`concurrent_queue.h` is missing). -/
def bounded (capacity : Nat) (policy : OverflowPolicy) : TypedQueue α :=
  ⟨[], some capacity, policy, 0⟩

/-- Modelled from the spec: `size()`, the number of queued items
(`concurrent_queue.h` is missing). -/
def size (q : TypedQueue α) : Nat :=
  q.items.length

/-- Modelled from the spec: whether a bounded queue is full
(`concurrent_queue.h` is missing). -/
def isFull (q : TypedQueue α) : Bool :=
  match q.capacity with
  | none => false
  | some c => decide (c ≤ q.items.length)

/-- Modelled from the spec: `push(item)` (`concurrent_queue.h` is missing):
enqueues at the tail if capacity allows; on a full bounded queue the policy
decides: drop the oldest entry, count it and enqueue; reject; or block. -/
def push (q : TypedQueue α) (item : α) : PushStatus × TypedQueue α :=
  if q.isFull then
    match q.policy with
    | .dropOldest =>
      (.droppedOldest, { q with items := q.items.tail ++ [item], dropped := q.dropped + 1 })
    | .reject => (.rejected, q)
    | .block => (.blocked, q)
  else
    (.enqueued, { q with items := q.items ++ [item] })

/-- Modelled from the spec: `pop` (`concurrent_queue.h` is missing): removes
and returns the oldest item, or returns the distinct "no item" result `none`
on an empty queue. -/
def pop (q : TypedQueue α) : Option α × TypedQueue α :=
  match q.items with
  | [] => (none, q)
  | x :: rest => (some x, { q with items := rest })

/-- Modelled from the spec: the queue after a sequence of pushes, in order
(`concurrent_queue.h` is missing). -/
def pushAll (q : TypedQueue α) (ps : List α) : TypedQueue α :=
  ps.foldl (fun acc p => (acc.push p).2) q

/-- Modelled from the spec: a single consumer that drains the queue by
successive pops until a pop reports "no item" (`concurrent_queue.h` is
missing). Returns the items in the order observed and the queue left behind;
`none` when `fuel` pops were not enough to reach "no item". -/
def drain : Nat → TypedQueue α → Option (List α × TypedQueue α)
  | 0, _ => none
  | fuel + 1, q =>
    match q.pop with
    | (none, q₁) => some ([], q₁)
    | (some x, q₁) =>
      match drain fuel q₁ with
      | none => none
      | some (xs, q₂) => some (x :: xs, q₂)

end TypedQueue

/-- Modelled from the spec: the state of one `TypedMap<T>` instance
(`concurrent_map.h` is missing): the keyed store, holding for each key that
has an entry the most recent message; keys are satellite or system ids. -/
structure TypedMap (α : Type) where
  entries : List (Nat × α)
  deriving DecidableEq, Repr

/-- Modelled from the spec: an operation that writes a map
(`concurrent_map.h` is missing). -/
inductive MapWrite (α : Type) where
  | upsert (key : Nat) (value : α)
  | remove (key : Nat)
  deriving DecidableEq, Repr

namespace TypedMap

variable {α : Type}

/-- Modelled from the spec: a map as the drivers declare it,
`concurrent_map<T> m;` (`concurrent_map.h` is missing): no entry. -/
def declared : TypedMap α :=
  ⟨[]⟩

/-- Modelled from the spec: `upsert(key, value)` (`concurrent_map.h` is
missing): inserts, or replaces the entry of the key wholesale. -/
def upsert (m : TypedMap α) (key : Nat) (value : α) : TypedMap α :=
  ⟨(key, value) :: m.entries.filter (fun e => decide (e.1 ≠ key))⟩

/-- Modelled from the spec: `remove(key)` (`concurrent_map.h` is missing). -/
def remove (m : TypedMap α) (key : Nat) : TypedMap α :=
  ⟨m.entries.filter (fun e => decide (e.1 ≠ key))⟩

/-- Modelled from the spec: `get(key)` (`concurrent_map.h` is missing):
returns present (`some value`) or absent (`none`) distinctly, and the map as
it is after the call. -/
def get (m : TypedMap α) (key : Nat) : Option α × TypedMap α :=
  (m.entries.lookup key, m)

/-- Modelled from the spec: the map after a sequence of upserts, in order
(`concurrent_map.h` is missing). -/
def upsertAll (m : TypedMap α) (us : List (Nat × α)) : TypedMap α :=
  us.foldl (fun acc u => acc.upsert u.1 u.2) m

/-- Modelled from the spec: one write applied to the map
(`concurrent_map.h` is missing). -/
def write (m : TypedMap α) : MapWrite α → TypedMap α
  | .upsert key value => m.upsert key value
  | .remove key => m.remove key

/-- Modelled from the spec: the map after a sequence of writes, in order
(`concurrent_map.h` is missing). -/
def writeAll (m : TypedMap α) (ws : List (MapWrite α)) : TypedMap α :=
  ws.foldl write m

end TypedMap

/-- The value of the last upsert of the sequence whose key is `key`, if any. -/
def lastUpsert {α : Type} (key : Nat) (us : List (Nat × α)) : Option α :=
  ((us.filter (fun u => decide (u.1 = key))).getLast?).map (fun u => u.2)

/-- Whether a write is an upsert of the given key. -/
def MapWrite.upserts {α : Type} (key : Nat) : MapWrite α → Bool
  | .upsert k _ => decide (k = key)
  | .remove _ => false

/-- Modelled from the spec: the navigation message of the data model
(section 3), with the constellation and kind tag, the source key, the payload
(opaque to the bus) and the reception timestamp. -/
structure NavigationMessage where
  constellation : Constellation
  kind : Kind
  key : Nat
  payload : Nat
  timestamp : Nat
  deriving DecidableEq, Repr

/-! ## The satellite scan of `Number_of_Satellites.cc` and `Sample_Format.cc`

The scan loop is the same text in both files (`Number_of_Satellites.cc` lines
110-169, `Sample_Format.cc` lines 118-177). Latitudes and longitudes are held
in units of `10^-5` degree, exactly; heights are the `long int` values of the
source. The loop variables `lat`, `longi`, `height` are read by the exit test
after their loops, so they are kept in the state with the values the loops
leave in them. -/

/-- How a piece of the scan ends: at its end (`done`), by leaving the defined
behaviour of the program, that is an index outside an array of 10000 slots
or `LOG(FATAL)` after `run` threw (`abort`), or not within the fuel given
(`fuelOut`). -/
inductive Res (α : Type) where
  | done (a : α)
  | abort
  | fuelOut
  deriving DecidableEq, Repr

/-- What the scan takes from outside the two files. -/
structure ScanEnv where
  /-- The value of `power(10,-5)` in units of `10^-5` degree; `power` is not
  defined in the sources. -/
  step : Int
  /-- The outcome of the test `sess.Position != 0` for the session built from
  `i` and the grid point `(lat, longi, height)`. -/
  located : Nat → Int → Int → Int → Bool
  /-- Whether `control_thread->run()` returns in the body execution for `i`
  and the grid point, or throws. -/
  runReturns : Nat → Int → Int → Int → Bool

/-- The variables of `main` that the scan reads and writes. A slot of an array
is `none` until the scan writes it. -/
structure ScanState where
  i : Nat
  _latitude : Nat → Option Int
  _longitude : Nat → Option Int
  _height : Nat → Option Int
  lat : Int
  longi : Int
  height : Int
  n : Option Nat

/-- An angle of whole degrees in units of `10^-5` degree. -/
def degrees (d : Int) : Int :=
  d * 100000

/-- The absolute value, `fabs`. -/
def fabs (x : Int) : Int :=
  if x < 0 then -x else x

/-- The assignment `a(idx) = v` to one slot of an array. -/
def store (a : Nat → Option Int) (idx : Nat) (v : Int) : Nat → Option Int :=
  fun k => if k = idx then some v else a k

/-- The state before the scan: `long int i=1;`, arrays not yet written. -/
def scanInit : ScanState :=
  { i := 1, _latitude := fun _ => none, _longitude := fun _ => none, _height := fun _ => none,
    lat := 0, longi := 0, height := 0, n := none }

/-- The body of the innermost loop (`Number_of_Satellites.cc` lines 122-160):
when `sess.Position != 0`, the grid point is recorded at index `i` and `i` is
incremented; then `begin(i)`, `end(i)` and `active_time(i)` are written around
the call of `run`. The arrays have 10000 slots. -/
def scanBody (env : ScanEnv) (s : ScanState) : Res ScanState :=
  if env.located s.i s.lat s.longi s.height then
    if s.i < 10000 then
      if s.i + 1 < 10000 then
        if env.runReturns s.i s.lat s.longi s.height then
          .done { s with
            _latitude := store s._latitude s.i s.lat,
            _longitude := store s._longitude s.i s.longi,
            _height := store s._height s.i s.height,
            i := s.i + 1 }
        else .abort
      else .abort
    else .abort
  else
    if s.i < 10000 then
      if env.runReturns s.i s.lat s.longi s.height then .done s else .abort
    else .abort

/-- The loop `for(long int height = 2000; height <= 20000; height = height + 100)`
from its test on. -/
def heightLoop (env : ScanEnv) : Nat → ScanState → Res ScanState
  | 0, _ => .fuelOut
  | fuel + 1, s =>
    if s.height ≤ 20000 then
      match scanBody env s with
      | .done s₁ => heightLoop env fuel { s₁ with height := s₁.height + 100 }
      | .abort => .abort
      | .fuelOut => .fuelOut
    else .done s

/-- The loop `for(long double longi = fabs(-180); longi <= fabs(180);
longi = longi + power(10,-5))` from its test on. -/
def longiLoop (env : ScanEnv) : Nat → ScanState → Res ScanState
  | 0, _ => .fuelOut
  | fuel + 1, s =>
    if s.longi ≤ fabs (degrees 180) then
      match heightLoop env fuel { s with height := 2000 } with
      | .done s₁ => longiLoop env fuel { s₁ with longi := s₁.longi + env.step }
      | .abort => .abort
      | .fuelOut => .fuelOut
    else .done s

/-- The loop `for(long double lat = fabs(-90); lat <= fabs(90);
lat = lat + power(10,-5))` from its test on. -/
def latLoop (env : ScanEnv) : Nat → ScanState → Res ScanState
  | 0, _ => .fuelOut
  | fuel + 1, s =>
    if s.lat ≤ fabs (degrees 90) then
      match longiLoop env fuel { s with longi := fabs (degrees (-180)) } with
      | .done s₁ => latLoop env fuel { s₁ with lat := s₁.lat + env.step }
      | .abort => .abort
      | .fuelOut => .fuelOut
    else .done s

/-- One pass of the three nested loops (lines 116-164). -/
def scanPass (env : ScanEnv) (fuel : Nat) (s : ScanState) : Res ScanState :=
  latLoop env fuel { s with lat := fabs (degrees (-90)) }

/-- The exit test `lat == fabs(90) && longi == fabs(180) && height == 20000`
(line 165). -/
def scanExitTest (s : ScanState) : Bool :=
  decide (s.lat = fabs (degrees 90)) && decide (s.longi = fabs (degrees 180))
    && decide (s.height = 20000)

/-- The exit branch `long int n = i; i = 0;` (line 167). -/
def scanExit (s : ScanState) : ScanState :=
  { s with n := some s.i, i := 0 }

/-- The loop `while(i!=0)` (lines 114-169) from its test on. -/
def scan (env : ScanEnv) : Nat → ScanState → Res ScanState
  | 0, _ => .fuelOut
  | fuel + 1, s =>
    if s.i ≠ 0 then
      match scanPass env fuel s with
      | .done s₁ => scan env fuel (if scanExitTest s₁ then scanExit s₁ else s₁)
      | .abort => .abort
      | .fuelOut => .fuelOut
    else .done s

/-- The recorded positions fill exactly the slots `1, ..., i - 1`. -/
def Recorded (s : ScanState) : Prop :=
  1 ≤ s.i ∧ s.i ≤ 10000 ∧
    ∀ k, ((s._latitude k).isSome = true ↔ (1 ≤ k ∧ k < s.i)) ∧
      ((s._longitude k).isSome = true ↔ (1 ≤ k ∧ k < s.i)) ∧
      ((s._height k).isSome = true ↔ (1 ≤ k ∧ k < s.i))

/-- An environment in which a satellite is located at height 2000 only, the
step is `10^-5` degree and `run` always returns. -/
def oneSatellite : ScanEnv :=
  { step := 1, located := fun _ _ _ height => decide (height = 2000),
    runReturns := fun _ _ _ _ => true }

/-! ## The position lookup of `Sample_Format.cc` -/

/-- The loop of `Sample_Format.cc` lines 189-194, from its test on, with the
current `j` and `count`:
`for (long int j = 1; j <= n; j++) { if (_lattitude(j) == Sat_latitude &&
_longitude(j) == Sat_longitude && _height(j) == Sat_height) count = 1; else
count = 0; }`. The arrays are given with whatever their slots hold; the source
spells the first one `_lattitude`. `none` when the fuel does not reach the end
of the loop. -/
def lookupLoop (_lattitude _longitude _height : Nat → Int)
    (Sat_latitude Sat_longitude Sat_height : Int) (n : Nat) : Nat → Nat → Int → Option Int
  | 0, _, _ => none
  | fuel + 1, j, count =>
    if j ≤ n then
      lookupLoop _lattitude _longitude _height Sat_latitude Sat_longitude Sat_height n fuel (j + 1)
        (if _lattitude j = Sat_latitude ∧ _longitude j = Sat_longitude ∧ _height j = Sat_height
          then 1 else 0)
    else some count

/-- The value of `count` after the lookup: `int count = 0` (line 183) and the
loop from `j = 1`; `n + 1` tests of the loop condition reach its end. -/
def lookupCount (_lattitude _longitude _height : Nat → Int)
    (Sat_latitude Sat_longitude Sat_height : Int) (n : Nat) : Option Int :=
  lookupLoop _lattitude _longitude _height Sat_latitude Sat_longitude Sat_height n (n + 1) 1 0

/-- Whether a piece of the scan ran to its end. -/
def Res.isDone {α : Type} : Res α → Bool
  | .done _ => true
  | .abort => false
  | .fuelOut => false

/-- The result with the final state changed by `f`; `abort` and `fuelOut`
stay as they are. -/
def Res.map {α β : Type} (f : α → β) : Res α → Res β
  | .done a => .done (f a)
  | .abort => .abort
  | .fuelOut => .fuelOut

/-- An environment in which no satellite is located anywhere, the step is
`10^-5` degree and `run` always returns. -/
def noSatellite : ScanEnv :=
  { step := 1, located := fun _ _ _ _ => false, runReturns := fun _ _ _ _ => true }

/-- The grid points at which the claim says a pass executes the loop body, in
order: latitude 90, longitude 180 and the heights 2000, 2100, ..., 20000. -/
def scanGrid : List (Int × Int × Int) :=
  (List.range 181).map (fun (k : Nat) => (degrees 90, degrees 180, 2000 + 100 * (k : Int)))

/-- The grid points `(la, lo, h), (la, lo, h + 100), ...`, `m` of them. -/
def pointsFrom (la lo : Int) : Int → Nat → List (Int × Int × Int)
  | _, 0 => []
  | h, m + 1 => (la, lo, h) :: pointsFrom la lo (h + 100) m

/-- The loop body executed once at each grid point of the list, in order, with
the loop variables set to the point. -/
def bodiesAt (env : ScanEnv) : List (Int × Int × Int) → ScanState → Res ScanState
  | [], s => .done s
  | p :: rest, s =>
    match scanBody env { s with lat := p.1, longi := p.2.1, height := p.2.2 } with
    | .done s₁ => bodiesAt env rest s₁
    | .abort => .abort
    | .fuelOut => .fuelOut

/-- The values the three loops leave in their variables when they end: the
first value of each past its bound. -/
def leaveLoops (env : ScanEnv) (s : ScanState) : ScanState :=
  { s with lat := fabs (degrees 90) + env.step, longi := fabs (degrees 180) + env.step,
           height := 20100 }

/-! ## The bandwidth of `BW_CF.cpp`

The division `1000000.0/total_time` is done in `double`. The rounding of a real
number to the nearest `double` is a parameter `fl`, of which only the
properties in `RoundsToDouble` are used. -/

/-- The timestamp `tv.tv_sec * 1000000 + tv.tv_usec` (`BW_CF.cpp` lines 139 and
155), in microseconds. -/
def timestamp (tv_sec tv_usec : Int) : Int :=
  tv_sec * 1000000 + tv_usec

/-- The elapsed time `long long int total_time = end - begin;` (line 156). -/
def total_time (begin endStamp : Int) : Int :=
  endStamp - begin

/-- The conversion of a `double` to `long long int`: the fraction is
discarded, that is the value is truncated toward zero. -/
def truncate (x : ℚ) : Int :=
  if 0 ≤ x then ⌊x⌋ else ⌈x⌉

/-- The assignment `long long int bandwidth = 1000000.0/total_time;`
(line 162): `total_time` is converted to `double`, the quotient is rounded to
`double` and converted to `long long int`. -/
def bandwidth (fl : ℚ → ℚ) (total_time : Int) : Int :=
  truncate (fl (1000000 / fl (total_time : ℚ)))

/-- The wall-clock run time in seconds, `total_time / 1000000` (line 158). -/
def runSeconds (total_time : Int) : ℚ :=
  (total_time : ℚ) / 1000000

/-- What is used of the rounding `fl` of a real number to the nearest `double`
(IEEE 754 binary64): it is monotone, it leaves the integers up to `2^53`
unchanged, and in the normal range its relative error is at most `2^-53`. -/
structure RoundsToDouble (fl : ℚ → ℚ) : Prop where
  mono : ∀ x y : ℚ, x ≤ y → fl x ≤ fl y
  exact_int : ∀ n : Int, |n| ≤ 2 ^ 53 → fl (n : ℚ) = (n : ℚ)
  rel_error : ∀ x : ℚ, 1 / 2 ^ 1022 ≤ |x| → |x| ≤ 2 ^ 1023 → |fl x - x| ≤ |x| / 2 ^ 53

/-! # Theorems -/

/-! ## Theorems on the declarations -/

/-- C1: for every entry of the routing table the declarations of `BW_CF.cpp`
hold exactly one instance of the container the table routes the pair to. -/
theorem registry_one_instance_per_route :
    ∀ r ∈ routingTable, (instancesFor r.container r.constellation r.kind).length = 1 := by
  decide

/-- The C1 theorem at the entry (GPS, AcqAssist, queue). -/
theorem registry_one_instance_per_route_witness :
    (⟨.GPS, .AcqAssist, .concurrent_queue⟩ : Route) ∈ routingTable ∧
      (instancesFor .concurrent_queue .GPS .AcqAssist).length = 1 :=
  ⟨by decide, registry_one_instance_per_route ⟨.GPS, .AcqAssist, .concurrent_queue⟩ (by decide)⟩

/-- C2, refuted as stated: `global_galileo_ephemeris_queue` is a declared queue
although the table routes (Galileo, Ephemeris) to a map only, and
`global_gps_acq_assist_map` is a declared map although the table routes
(GPS, AcqAssist) to a queue only; so not every declaration is in the table. -/
theorem registry_container_outside_table :
    (⟨.concurrent_queue, .Galileo_Ephemeris, "global_galileo_ephemeris_queue", .Galileo⟩ : Decl)
        ∈ declarations ∧
      Decl.inTable ⟨.concurrent_queue, .Galileo_Ephemeris, "global_galileo_ephemeris_queue",
        .Galileo⟩ = false ∧
      (⟨.concurrent_map, .Gps_Acq_Assist, "global_gps_acq_assist_map", .GPS⟩ : Decl)
        ∈ declarations ∧
      Decl.inTable ⟨.concurrent_map, .Gps_Acq_Assist, "global_gps_acq_assist_map", .GPS⟩
        = false ∧
      ¬ (∀ d ∈ declarations, d.inTable = true) := by
  decide

/-- C2 as amended: every declared instance is for a pair of the routing table,
and for every pair of the table the code declares exactly one queue, and
exactly one map except for SBAS RawMsg, for which it declares none. -/
theorem registry_declared_containers :
    (∀ d ∈ declarations, d.pairInTable = true) ∧
      (∀ r ∈ routingTable,
        (instancesFor .concurrent_queue r.constellation r.kind).length = 1 ∧
        (instancesFor .concurrent_map r.constellation r.kind).length
          = declaredMaps r.constellation r.kind) := by
  decide

/-- C3: a (container, payload type) pair has at most one declared instance, any
two declarations with the same container and payload type are the same
declaration, and an instance only takes payloads of its own constellation. -/
theorem registry_handles_type_distinct :
    (∀ c p, (instancesOf c p).length ≤ 1) ∧
      (∀ d₁ ∈ declarations, ∀ d₂ ∈ declarations,
        d₁.container = d₂.container → d₁.payload = d₂.payload → d₁ = d₂) ∧
      (∀ d ∈ declarations, ∀ p, d.accepts p = true → p.constellation = d.group) := by
  refine ⟨?_, ?_, ?_⟩
  · intro c p
    cases c <;> cases p <;> decide
  · decide
  · intro d hd p hp
    have hp' : d.payload = p := by simpa [Decl.accepts] using hp
    subst hp'
    revert d
    decide

/-! ## Theorems on the lifetime of the instances -/

/-- Pushing into an unbounded queue appends at the tail and changes nothing
else. -/
theorem TypedQueue.pushAll_unbounded {α : Type} (ps : List α) :
    ∀ q : TypedQueue α, q.capacity = none →
      q.pushAll ps = { q with items := q.items ++ ps } := by
  induction ps with
  | nil => intro q _; simp [TypedQueue.pushAll]
  | cons p rest ih =>
    intro q hq
    have hstep : (q.push p).2 = { q with items := q.items ++ [p] } := by
      simp [TypedQueue.push, TypedQueue.isFull, hq]
    have hcap : ({ q with items := q.items ++ [p] } : TypedQueue α).capacity = none := hq
    have := ih _ hcap
    simp only [TypedQueue.pushAll, List.foldl_cons] at this ⊢
    rw [hstep, this]
    simp

/-- With more fuel than queued items, draining returns the items oldest first
and leaves the queue empty. -/
theorem TypedQueue.drain_items {α : Type} :
    ∀ (fuel : Nat) (q : TypedQueue α), q.items.length < fuel →
      TypedQueue.drain fuel q = some (q.items, { q with items := [] }) := by
  intro fuel
  induction fuel with
  | zero => intro q h; omega
  | succ n ih =>
    intro q h
    obtain ⟨items, cap, pol, dr⟩ := q
    cases items with
    | nil => simp [TypedQueue.drain, TypedQueue.pop]
    | cons x rest =>
      have hlen : rest.length < n := by simpa using h
      have := ih ⟨rest, cap, pol, dr⟩ hlen
      simp only [TypedQueue.drain, TypedQueue.pop]
      simp only at this
      rw [this]

/-- C5, FIFO law: after the pushes `P1..Pn` into a queue instance as declared,
a single consumer draining it by successive pops observes exactly `P1..Pn`, in
that order and each once, and leaves the queue empty. -/
theorem queue_fifo_law {α : Type} (ps : List α) (fuel : Nat) (h : ps.length < fuel) :
    TypedQueue.drain fuel ((TypedQueue.declared : TypedQueue α).pushAll ps)
      = some (ps, TypedQueue.declared) := by
  rw [TypedQueue.pushAll_unbounded ps _ rfl]
  rw [TypedQueue.drain_items fuel _ (by simpa [TypedQueue.declared] using h)]
  simp [TypedQueue.declared]

/-- The C5 theorem at the pushes 7, 8, 9 drained with four pops. -/
theorem queue_fifo_law_witness :
    [7, 8, 9].length < 4 ∧
      TypedQueue.drain 4 ((TypedQueue.declared : TypedQueue Nat).pushAll [7, 8, 9])
        = some ([7, 8, 9], TypedQueue.declared) :=
  ⟨by decide, queue_fifo_law [7, 8, 9] 4 (by decide)⟩

/-- C8, drop-oldest: on a queue of capacity 2 with the drop-oldest policy,
after the pushes `A`, `B`, `C` two pops return `B` and then `C`; the push of
`C` discards `A` and counts it, and the queue never holds more than 2 items. -/
theorem queue_drop_oldest_scenario {α : Type} (A B C : α) :
    let q₀ : TypedQueue α := TypedQueue.bounded 2 .dropOldest
    let q₁ := (q₀.push A).2
    let q₂ := (q₁.push B).2
    let q₃ := (q₂.push C).2
    q₁.size ≤ 2 ∧ q₂.size ≤ 2 ∧ q₃.size ≤ 2 ∧
      (q₂.push C).1 = .droppedOldest ∧ q₃.dropped = 1 ∧ q₃.items = [B, C] ∧
      q₃.pop.1 = some B ∧ q₃.pop.2.pop.1 = some C ∧ q₃.pop.2.pop.2.pop.1 = none := by
  simp [TypedQueue.bounded, TypedQueue.push, TypedQueue.isFull, TypedQueue.pop, TypedQueue.size]

/-! ## Theorems on the map -/

/-- Looking a key up after the entries of another key are filtered out. -/
theorem lookup_filter_ne {α : Type} (key k : Nat) (l : List (Nat × α)) :
    (l.filter (fun e => decide (e.1 ≠ k))).lookup key
      = if key = k then none else l.lookup key := by
  induction l with
  | nil => simp
  | cons e rest ih =>
    obtain ⟨ek, ev⟩ := e
    by_cases hek : ek = k
    · have h1 : List.filter (fun e => decide (e.1 ≠ k)) ((ek, ev) :: rest)
          = List.filter (fun e => decide (e.1 ≠ k)) rest := by
        apply List.filter_cons_of_neg
        simp [hek]
      rw [h1, ih, List.lookup_cons]
      by_cases hk : key = k
      · rw [if_pos hk, if_pos hk]
      · have h2 : (key == ek) = false := by
          rw [hek]; simpa using hk
        rw [if_neg hk, if_neg hk, h2]
    · have h1 : List.filter (fun e => decide (e.1 ≠ k)) ((ek, ev) :: rest)
          = (ek, ev) :: List.filter (fun e => decide (e.1 ≠ k)) rest := by
        apply List.filter_cons_of_pos
        simp [hek]
      rw [h1, List.lookup_cons, ih]
      by_cases hk : key = k
      · have h2 : (key == ek) = false := by
          rw [hk]; simpa using fun h : k = ek => hek h.symm
        rw [if_pos hk, if_pos hk, h2]
      · rw [if_neg hk, if_neg hk, List.lookup_cons]

/-- What `get` returns after an upsert. -/
theorem TypedMap.get_upsert {α : Type} (m : TypedMap α) (k key : Nat) (v : α) :
    ((m.upsert k v).get key).1 = if key = k then some v else (m.get key).1 := by
  unfold TypedMap.upsert TypedMap.get
  show List.lookup key ((k, v) :: List.filter (fun e => decide (e.1 ≠ k)) m.entries)
    = if key = k then some v else List.lookup key m.entries
  rw [List.lookup_cons, lookup_filter_ne]
  by_cases hk : key = k
  · have h2 : (key == k) = true := by simpa using hk
    rw [h2, if_pos hk, if_pos hk]
  · have h2 : (key == k) = false := by simpa using hk
    rw [h2, if_neg hk, if_neg hk]

/-- What `get` returns after a remove. -/
theorem TypedMap.get_remove {α : Type} (m : TypedMap α) (k key : Nat) :
    ((m.remove k).get key).1 = if key = k then none else (m.get key).1 := by
  unfold TypedMap.remove TypedMap.get
  exact lookup_filter_ne key k m.entries

/-- What `get` returns after a sequence of upserts: the value of the last
upsert of the key, or what the map held before if there is none. -/
theorem TypedMap.get_upsertAll {α : Type} (key : Nat) (us : List (Nat × α)) :
    ∀ m : TypedMap α, ((m.upsertAll us).get key).1
      = (match lastUpsert key us with
         | some v => some v
         | none => (m.get key).1) := by
  induction us using List.reverseRecOn with
  | nil => intro m; simp [TypedMap.upsertAll, lastUpsert]
  | append_singleton rest u ih =>
    intro m
    have hfold : m.upsertAll (rest ++ [u]) = (m.upsertAll rest).upsert u.1 u.2 := by
      simp [TypedMap.upsertAll, List.foldl_append]
    rw [hfold, TypedMap.get_upsert, ih m]
    by_cases hk : u.1 = key
    · simp [lastUpsert, List.filter_append, hk]
    · have hk' : ¬ key = u.1 := fun h => hk h.symm
      simp [lastUpsert, List.filter_append, hk, hk']

/-- C6, last-write-wins: after a sequence of upserts to a map instance in
which key `K` is upserted, `get(K)` returns present with the value of the last
upsert whose key is `K`, whole. -/
theorem map_last_write_wins {α : Type} (m : TypedMap α) (K : Nat) (us : List (Nat × α)) (v : α)
    (h : lastUpsert K us = some v) :
    ((m.upsertAll us).get K).1 = some v := by
  rw [TypedMap.get_upsertAll, h]

/-- The C6 theorem at the scenario of the specification: GPS ephemeris of
satellite 3 upserted with timestamp 100 and then with timestamp 105. -/
theorem map_last_write_wins_witness :
    lastUpsert 3 [(3, (⟨.GPS, .Ephemeris, 3, 41, 100⟩ : NavigationMessage)),
        (3, ⟨.GPS, .Ephemeris, 3, 42, 105⟩)] = some ⟨.GPS, .Ephemeris, 3, 42, 105⟩ ∧
      (((TypedMap.declared : TypedMap NavigationMessage).upsertAll
        [(3, ⟨.GPS, .Ephemeris, 3, 41, 100⟩), (3, ⟨.GPS, .Ephemeris, 3, 42, 105⟩)]).get 3).1
        = some ⟨.GPS, .Ephemeris, 3, 42, 105⟩ :=
  ⟨by decide, map_last_write_wins TypedMap.declared 3 _ _ (by decide)⟩

/-- C7, absence safety: on a map instance written by any sequence of upserts
and removes among which no upsert has key `K`, `get(K)` returns absent, and
the map after the call is the map before it. -/
theorem map_absence_safety {α : Type} (K : Nat) (ws : List (MapWrite α))
    (h : ∀ w ∈ ws, w.upserts K = false) :
    ((TypedMap.declared : TypedMap α).writeAll ws).get K
      = (none, (TypedMap.declared : TypedMap α).writeAll ws) := by
  have key : (((TypedMap.declared : TypedMap α).writeAll ws).get K).1 = none := by
    induction ws using List.reverseRecOn with
    | nil => simp [TypedMap.writeAll, TypedMap.declared, TypedMap.get]
    | append_singleton rest w ih =>
      have hrest : ∀ w ∈ rest, w.upserts K = false :=
        fun x hx => h x (List.mem_append_left _ hx)
      have hw : w.upserts K = false := h w (by simp)
      have hfold : (TypedMap.declared : TypedMap α).writeAll (rest ++ [w])
          = ((TypedMap.declared : TypedMap α).writeAll rest).write w := by
        simp [TypedMap.writeAll, List.foldl_append]
      rw [hfold]
      cases w with
      | upsert k v =>
        have hk : ¬ K = k := by
          intro hKk
          simp [MapWrite.upserts, hKk] at hw
        simp only [TypedMap.write]
        rw [TypedMap.get_upsert, if_neg hk]
        exact ih hrest
      | remove k =>
        simp only [TypedMap.write]
        rw [TypedMap.get_remove]
        split
        · rfl
        · exact ih hrest
  exact Prod.ext key rfl

/-- The C7 theorem at key 5 after satellite 3 was upserted and satellite 4
removed. -/
theorem map_absence_safety_witness :
    (∀ w ∈ [MapWrite.upsert 3 (100 : Nat), MapWrite.remove 4], w.upserts 5 = false) ∧
      ((TypedMap.declared : TypedMap Nat).writeAll [.upsert 3 100, .remove 4]).get 5
        = (none, (TypedMap.declared : TypedMap Nat).writeAll [.upsert 3 100, .remove 4]) :=
  ⟨by decide, map_absence_safety 5 _ (by decide)⟩

/-! ## Theorems on the satellite scan -/

/-- Before the scan nothing is recorded and `i` is 1. -/
theorem scanInit_recorded : Recorded scanInit := by
  refine ⟨le_refl _, by decide, ?_⟩
  intro k
  simp only [scanInit, Option.isSome_none, Bool.false_eq_true, false_iff, not_and, not_lt]
  omega

/-- The loop body keeps the recorded positions in the slots `1, ..., i - 1`. -/
theorem scanBody_recorded (env : ScanEnv) (s s₁ : ScanState) (hs : Recorded s)
    (h : scanBody env s = .done s₁) : Recorded s₁ := by
  obtain ⟨h1, h2, h3⟩ := hs
  unfold scanBody at h
  split at h
  · split at h
    · split at h
      · split at h
        · injection h with h
          subst h
          refine ⟨by simp, by simp; omega, ?_⟩
          intro k
          have hk := h3 k
          simp only [store]
          by_cases hki : k = s.i
          · subst hki
            simp
            omega
          · simp only [if_neg hki]
            refine ⟨?_, ?_, ?_⟩
            · rw [hk.1]; omega
            · rw [hk.2.1]; omega
            · rw [hk.2.2]; omega
        · cases h
      · cases h
    · cases h
  · split at h
    · split at h
      · injection h with h
        subst h
        exact ⟨h1, h2, h3⟩
      · cases h
    · cases h

/-- The height loop keeps the recorded positions in the slots `1, ..., i - 1`. -/
theorem heightLoop_recorded (env : ScanEnv) :
    ∀ (fuel : Nat) (s s₁ : ScanState), Recorded s → heightLoop env fuel s = .done s₁ →
      Recorded s₁ := by
  intro fuel
  induction fuel with
  | zero => intro s s₁ _ h; simp [heightLoop] at h
  | succ m ih =>
    intro s s₁ hs h
    unfold heightLoop at h
    split at h
    · split at h
      · rename_i s₂ hbody
        exact ih { s₂ with height := s₂.height + 100 } s₁ (scanBody_recorded env s s₂ hs hbody) h
      · cases h
      · cases h
    · injection h with h
      subst h
      exact hs

/-- The longitude loop keeps the recorded positions in the slots
`1, ..., i - 1`. -/
theorem longiLoop_recorded (env : ScanEnv) :
    ∀ (fuel : Nat) (s s₁ : ScanState), Recorded s → longiLoop env fuel s = .done s₁ →
      Recorded s₁ := by
  intro fuel
  induction fuel with
  | zero => intro s s₁ _ h; simp [longiLoop] at h
  | succ m ih =>
    intro s s₁ hs h
    unfold longiLoop at h
    split at h
    · split at h
      · rename_i s₂ hinner
        exact ih { s₂ with longi := s₂.longi + env.step } s₁
          (heightLoop_recorded env m { s with height := 2000 } s₂ hs hinner) h
      · cases h
      · cases h
    · injection h with h
      subst h
      exact hs

/-- The latitude loop keeps the recorded positions in the slots
`1, ..., i - 1`. -/
theorem latLoop_recorded (env : ScanEnv) :
    ∀ (fuel : Nat) (s s₁ : ScanState), Recorded s → latLoop env fuel s = .done s₁ →
      Recorded s₁ := by
  intro fuel
  induction fuel with
  | zero => intro s s₁ _ h; simp [latLoop] at h
  | succ m ih =>
    intro s s₁ hs h
    unfold latLoop at h
    split at h
    · split at h
      · rename_i s₂ hinner
        exact ih { s₂ with lat := s₂.lat + env.step } s₁
          (longiLoop_recorded env m { s with longi := fabs (degrees (-180)) } s₂ hs hinner) h
      · cases h
      · cases h
    · injection h with h
      subst h
      exact hs

/-- A pass of the nested loops keeps the recorded positions in the slots
`1, ..., i - 1`. -/
theorem scanPass_recorded (env : ScanEnv) (fuel : Nat) (s s₁ : ScanState) (hs : Recorded s)
    (h : scanPass env fuel s = .done s₁) : Recorded s₁ :=
  latLoop_recorded env fuel { s with lat := fabs (degrees (-90)) } s₁ hs h

/-! ## Theorems on the position lookup -/

/-- The lookup loop, entered at `j` with enough fuel, ends with the outcome of
the comparison at the last index `n`, or with the incoming `count` when it
makes no iteration. -/
theorem lookupLoop_eq (la lo he : Nat → Int) (x y z : Int) (n : Nat) :
    ∀ (fuel j : Nat) (count : Int), n + 1 - j < fuel →
      lookupLoop la lo he x y z n fuel j count
        = some (if j ≤ n then (if la n = x ∧ lo n = y ∧ he n = z then 1 else 0) else count) := by
  intro fuel
  induction fuel with
  | zero =>
    intro j count h
    omega
  | succ m ih =>
    intro j count h
    unfold lookupLoop
    by_cases hj : j ≤ n
    · rw [if_pos hj, if_pos hj, ih (j + 1) _ (by omega)]
      by_cases hlast : j + 1 ≤ n
      · rw [if_pos hlast]
      · have hjn : j = n := by omega
        subst hjn
        rw [if_neg hlast]
    · rw [if_neg hj, if_neg hj]

/-- After the lookup, `count` is 1 exactly when the loop ran and the position
in the last slot `n` equals the entered one. -/
theorem lookupCount_eq (la lo he : Nat → Int) (x y z : Int) (n : Nat) :
    lookupCount la lo he x y z n
      = some (if 1 ≤ n ∧ (la n = x ∧ lo n = y ∧ he n = z) then 1 else 0) := by
  unfold lookupCount
  rw [lookupLoop_eq la lo he x y z n (n + 1) 1 0 (by omega)]
  by_cases h1 : 1 ≤ n
  · by_cases h2 : la n = x ∧ lo n = y ∧ he n = z
    · rw [if_pos h1, if_pos h2, if_pos ⟨h1, h2⟩]
    · rw [if_pos h1, if_neg h2, if_neg (fun h => h2 h.2)]
  · rw [if_neg h1, if_neg (fun h => h1 h.1)]

/-- The latitude loop ends only with its condition `lat <= fabs(90)` false. -/
theorem latLoop_done_lat (env : ScanEnv) :
    ∀ (fuel : Nat) (s s₁ : ScanState), latLoop env fuel s = .done s₁ →
      ¬ s₁.lat ≤ fabs (degrees 90) := by
  intro fuel
  induction fuel with
  | zero => intro s s₁ h; simp [latLoop] at h
  | succ m ih =>
    intro s s₁ h
    unfold latLoop at h
    split at h
    · split at h
      · exact ih _ s₁ h
      · cases h
      · cases h
    · rename_i hcond
      injection h with h
      subst h
      exact hcond

/-- After a completed pass of the nested loops the exit test is false: `lat`
is past `fabs(90)`. -/
theorem scanPass_exit_false (env : ScanEnv) (fuel : Nat) (s s₁ : ScanState)
    (h : scanPass env fuel s = .done s₁) : scanExitTest s₁ = false := by
  have hlat := latLoop_done_lat env fuel _ s₁ h
  have hne : ¬ s₁.lat = fabs (degrees 90) := fun heq => hlat (le_of_eq heq)
  simp [scanExitTest, hne]

/-- From a state whose recorded positions fill the slots `1, ..., i - 1`, the
loop `while(i!=0)` does not reach its end, whatever the fuel. -/
theorem scan_not_done (env : ScanEnv) :
    ∀ (fuel : Nat) (s : ScanState), Recorded s → (scan env fuel s).isDone = false := by
  intro fuel
  induction fuel with
  | zero => intro s _; rfl
  | succ m ih =>
    intro s hs
    have hi : s.i ≠ 0 := by
      have := hs.1
      omega
    unfold scan
    rw [if_pos hi]
    split
    · rename_i s₁ hpass
      rw [scanPass_exit_false env m s s₁ hpass]
      exact ih s₁ (scanPass_recorded env m s s₁ hs hpass)
    · rfl
    · rfl

/-- C12, the scan does not end: for every environment and every fuel the loop
`while(i!=0)` from the initial state does not reach its end; with no satellite
located a pass of the nested loops completes and leaves `lat` at 90.00001,
`longi` at 180.00001 and `height` at 20100, the exit test is false, `n` is not
set and `i` is still 1. -/
theorem scan_never_ends :
    (∀ (env : ScanEnv) (fuel : Nat), (scan env fuel scanInit).isDone = false) ∧
      scanPass noSatellite 200 scanInit
        = .done { scanInit with lat := 9000001, longi := 18000001, height := 20100 } ∧
      scanExitTest { scanInit with lat := 9000001, longi := 18000001, height := 20100 } = false ∧
      ({ scanInit with lat := 9000001, longi := 18000001, height := 20100 } : ScanState).i = 1 ∧
      ({ scanInit with lat := 9000001, longi := 18000001, height := 20100 } : ScanState).n
        = none :=
  ⟨fun env fuel => scan_not_done env fuel scanInit scanInit_recorded, rfl, by decide, rfl, rfl⟩

/-! ## Theorems on one pass of the nested loops -/

/-- The points from a height on are the images of `0, ..., m - 1`. -/
theorem pointsFrom_eq_map (la lo : Int) :
    ∀ (m : Nat) (h : Int),
      pointsFrom la lo h m = (List.range m).map (fun (k : Nat) => (la, lo, h + 100 * (k : Int))) := by
  intro m
  induction m with
  | zero => intro h; rfl
  | succ m ih =>
    intro h
    rw [List.range_succ_eq_map, List.map_cons, List.map_map]
    simp only [pointsFrom, ih, Nat.cast_zero, mul_zero, add_zero, List.cons.injEq, true_and]
    apply List.map_congr_left
    intro k _
    simp only [Function.comp, Nat.cast_succ, Prod.mk.injEq, true_and]
    ring

/-- The grid of the claim is the list of 181 points from height 2000 on. -/
theorem scanGrid_eq : scanGrid = pointsFrom (degrees 90) (degrees 180) 2000 181 := by
  rw [pointsFrom_eq_map]
  rfl

/-- The loop body leaves the loop variables as they are. -/
theorem scanBody_vars (env : ScanEnv) (s s₁ : ScanState) (h : scanBody env s = .done s₁) :
    s₁.lat = s.lat ∧ s₁.longi = s.longi ∧ s₁.height = s.height := by
  unfold scanBody at h
  split at h
  · split at h
    · split at h
      · split at h
        · injection h with h
          subst h
          exact ⟨rfl, rfl, rfl⟩
        · cases h
      · cases h
    · cases h
  · split at h
    · split at h
      · injection h with h
        subst h
        exact ⟨rfl, rfl, rfl⟩
      · cases h
    · cases h

/-- The bodies at grid points of one latitude and longitude leave `lat` and
`longi` at these values. -/
theorem bodiesAt_pointsFrom_vars (env : ScanEnv) (la lo : Int) :
    ∀ (m : Nat) (h : Int) (s s₁ : ScanState), s.lat = la → s.longi = lo →
      bodiesAt env (pointsFrom la lo h m) s = .done s₁ → s₁.lat = la ∧ s₁.longi = lo := by
  intro m
  induction m with
  | zero =>
    intro h s s₁ hla hlo hb
    simp only [pointsFrom, bodiesAt] at hb
    injection hb with hb
    subst hb
    exact ⟨hla, hlo⟩
  | succ m ih =>
    intro h s s₁ hla hlo hb
    simp only [pointsFrom, bodiesAt] at hb
    split at hb
    · rename_i s₂ hbody
      have hv := scanBody_vars env _ s₂ hbody
      exact ih (h + 100) s₂ s₁ hv.1 hv.2.1 hb
    · cases hb
    · cases hb

/-- The bodies at a list of grid points do not depend on the height the state
holds before, once the height is set at the end. -/
theorem bodiesAt_height (env : ScanEnv) (pts : List (Int × Int × Int)) (s : ScanState)
    (h : Int) :
    Res.map (fun s' : ScanState => { s' with height := 20100 })
        (bodiesAt env pts { s with height := h })
      = Res.map (fun s' : ScanState => { s' with height := 20100 }) (bodiesAt env pts s) := by
  cases pts with
  | nil => rfl
  | cons p rest => rfl

/-- The height loop, entered with `m` iterations to go and more fuel than
that, executes the body at the `m` grid points from its height on and leaves
`height` at 20100. -/
theorem heightLoop_eq_bodiesAt (env : ScanEnv) :
    ∀ (m fuel : Nat) (s : ScanState), m < fuel → s.height + 100 * (m : Int) = 20100 →
      heightLoop env fuel s
        = Res.map (fun s' : ScanState => { s' with height := 20100 })
            (bodiesAt env (pointsFrom s.lat s.longi s.height m) s) := by
  intro m
  induction m with
  | zero =>
    intro fuel s hf hh
    cases fuel with
    | zero => omega
    | succ f =>
      have hh' : s.height = 20100 := by simpa using hh
      unfold heightLoop
      rw [if_neg (by omega)]
      obtain ⟨i, a, b, c, la, lo, he, n⟩ := s
      simp only at hh'
      subst hh'
      rfl
  | succ m ih =>
    intro fuel s hf hh
    cases fuel with
    | zero => omega
    | succ f =>
      have hle : s.height ≤ 20000 := by
        push_cast at hh
        omega
      unfold heightLoop
      rw [if_pos hle]
      show (match scanBody env s with
          | .done s₁ => heightLoop env f { s₁ with height := s₁.height + 100 }
          | .abort => .abort
          | .fuelOut => .fuelOut)
        = Res.map (fun s' : ScanState => { s' with height := 20100 })
            (match scanBody env s with
              | .done s₁ => bodiesAt env (pointsFrom s.lat s.longi (s.height + 100) m) s₁
              | .abort => .abort
              | .fuelOut => .fuelOut)
      cases hbody : scanBody env s with
      | done s₁ =>
        have hv := scanBody_vars env s s₁ hbody
        have hnext := ih f { s₁ with height := s₁.height + 100 } (by omega)
          (by
            show s₁.height + 100 + 100 * (m : Int) = 20100
            rw [hv.2.2]
            push_cast at hh
            omega)
        simp only at hnext ⊢
        rw [hnext, bodiesAt_height, hv.1, hv.2.1, hv.2.2]
      | abort => rfl
      | fuelOut => rfl

/-- The bodies at a non-empty list of grid points do not depend on the values
the loop variables hold before. -/
theorem bodiesAt_cons_vars (env : ScanEnv) (p : Int × Int × Int)
    (rest : List (Int × Int × Int)) (s : ScanState) (a b c : Int) :
    bodiesAt env (p :: rest) { s with lat := a, longi := b, height := c }
      = bodiesAt env (p :: rest) s :=
  rfl

/-- The longitude loop, entered at `longi = fabs(180)` with a positive step,
makes one iteration: the body is executed at the 181 heights, and the loop
leaves `longi` one step past its bound. -/
theorem longiLoop_eq_bodiesAt (env : ScanEnv) (hstep : 0 < env.step) (fuel : Nat)
    (hfuel : 183 ≤ fuel) (s : ScanState) (hlongi : s.longi = fabs (degrees 180)) :
    longiLoop env fuel s
      = Res.map (fun s' : ScanState =>
          { s' with longi := fabs (degrees 180) + env.step, height := 20100 })
          (bodiesAt env (pointsFrom s.lat s.longi 2000 181) s) := by
  obtain ⟨f, rfl⟩ : ∃ f, fuel = f + 2 := ⟨fuel - 2, by omega⟩
  have hinner := heightLoop_eq_bodiesAt env 181 (f + 1) { s with height := 2000 }
    (by omega) (by show (2000 : Int) + 100 * ((181 : Nat) : Int) = 20100; norm_num)
  simp only at hinner
  rw [bodiesAt_height] at hinner
  unfold longiLoop
  rw [if_pos (le_of_eq hlongi), hinner]
  cases hb : bodiesAt env (pointsFrom s.lat s.longi 2000 181) s with
  | done s₂ =>
    have hv := bodiesAt_pointsFrom_vars env s.lat s.longi 181 2000 s s₂ rfl rfl hb
    simp only [Res.map]
    unfold longiLoop
    have hexit : ¬ s₂.longi + env.step ≤ fabs (degrees 180) := by
      rw [hv.2, hlongi]
      omega
    rw [if_neg hexit, hv.2, hlongi]
  | abort => rfl
  | fuelOut => rfl

/-- The latitude loop, entered at `lat = fabs(90)` with a positive step, makes
one iteration: the body is executed at the 181 grid points of latitude 90 and
longitude 180, and the loops leave their variables past their bounds. -/
theorem latLoop_eq_bodiesAt (env : ScanEnv) (hstep : 0 < env.step) (fuel : Nat)
    (hfuel : 184 ≤ fuel) (s : ScanState) (hlat : s.lat = fabs (degrees 90)) :
    latLoop env fuel s
      = Res.map (leaveLoops env)
          (bodiesAt env (pointsFrom (degrees 90) (degrees 180) 2000 181) s) := by
  obtain ⟨f, rfl⟩ : ∃ f, fuel = f + 2 := ⟨fuel - 2, by omega⟩
  have hinner := longiLoop_eq_bodiesAt env hstep (f + 1) (by omega)
    { s with longi := fabs (degrees (-180)) }
    (by show fabs (degrees (-180)) = fabs (degrees 180); decide)
  have hpts : pointsFrom s.lat (fabs (degrees (-180))) 2000 181
      = pointsFrom (degrees 90) (degrees 180) 2000 181 := by
    rw [hlat]
    rfl
  have hcons : pointsFrom (degrees 90) (degrees 180) 2000 181
      = (degrees 90, degrees 180, 2000) :: pointsFrom (degrees 90) (degrees 180) (2000 + 100) 180 :=
    rfl
  simp only at hinner
  rw [hpts] at hinner
  have hsame : bodiesAt env (pointsFrom (degrees 90) (degrees 180) 2000 181)
        { s with longi := fabs (degrees (-180)) }
      = bodiesAt env (pointsFrom (degrees 90) (degrees 180) 2000 181) s := by
    rw [hcons]
    rfl
  rw [hsame] at hinner
  unfold latLoop
  rw [if_pos (le_of_eq hlat), hinner]
  cases hb : bodiesAt env (pointsFrom (degrees 90) (degrees 180) 2000 181) s with
  | done s₂ =>
    have hs : s.lat = degrees 90 := by rw [hlat]; rfl
    have hv := bodiesAt_pointsFrom_vars env (degrees 90) (degrees 180) 181 2000
      { s with lat := degrees 90, longi := degrees 180 } s₂ rfl rfl
      (by rw [hcons] at hb ⊢; exact hb)
    simp only [Res.map]
    unfold latLoop
    have hexit : ¬ s₂.lat + env.step ≤ fabs (degrees 90) := by
      rw [hv.1]
      have : fabs (degrees 90) = degrees 90 := rfl
      rw [this]
      omega
    rw [if_neg hexit, hv.1]
    rfl
  | abort => rfl
  | fuelOut => rfl

/-- C13, one pass executes the body 181 times: with a positive step and enough
fuel, a pass of the nested loops is the loop body executed once at each of the
181 grid points of latitude 90, longitude 180 and heights 2000, 2100, ...,
20000, in this order, after which the loop variables hold the first values past
their bounds. -/
theorem scanPass_executes_grid (env : ScanEnv) (hstep : 0 < env.step) (fuel : Nat)
    (hfuel : 184 ≤ fuel) (s : ScanState) :
    scanPass env fuel s = Res.map (leaveLoops env) (bodiesAt env scanGrid s) ∧
      scanGrid.length = 181 ∧
      scanGrid.head? = some (degrees 90, degrees 180, 2000) ∧
      scanGrid.getLast? = some (degrees 90, degrees 180, 20000) := by
  have h0 : List.range 181 = 0 :: (List.range 180).map Nat.succ := List.range_succ_eq_map 180
  refine ⟨?_, by simp [scanGrid], by simp [scanGrid, h0], ?_⟩
  · unfold scanPass
    rw [latLoop_eq_bodiesAt env hstep fuel hfuel _
      (by show fabs (degrees (-90)) = fabs (degrees 90); decide), scanGrid_eq]
    have hcons : pointsFrom (degrees 90) (degrees 180) 2000 181
        = (degrees 90, degrees 180, 2000)
          :: pointsFrom (degrees 90) (degrees 180) (2000 + 100) 180 :=
      rfl
    rw [hcons]
    rfl
  · have h181 : List.range 181 = List.range 180 ++ [180] := List.range_succ 180
    simp [scanGrid, h181]

/-- The C13 theorem for the step `10^-5` degree, fuel 184 and the state before
the scan. -/
theorem scanPass_executes_grid_witness :
    0 < oneSatellite.step ∧ 184 ≤ 184 ∧
      (scanPass oneSatellite 184 scanInit
          = Res.map (leaveLoops oneSatellite) (bodiesAt oneSatellite scanGrid scanInit) ∧
        scanGrid.length = 181 ∧
        scanGrid.head? = some (degrees 90, degrees 180, 2000) ∧
        scanGrid.getLast? = some (degrees 90, degrees 180, 20000)) :=
  ⟨by decide, by decide, scanPass_executes_grid oneSatellite (by decide) 184 (by decide) scanInit⟩

/-! ## Theorems on the bandwidth -/

/-- A rounding that changes nothing has the properties of `RoundsToDouble`. -/
theorem id_roundsToDouble : RoundsToDouble (fun x : ℚ => x) where
  mono := fun _ _ h => h
  exact_int := fun _ _ => rfl
  rel_error := fun x _ _ => by
    rw [sub_self, abs_zero]
    exact div_nonneg (abs_nonneg x) (pow_nonneg (by norm_num) 53)

/-- A value between a non-negative integer and its successor truncates to the
integer. -/
theorem truncate_of_bounds (q : ℚ) (k : Int) (hk : 0 ≤ k) (h1 : (k : ℚ) ≤ q)
    (h2 : q < (k : ℚ) + 1) : truncate q = k := by
  have hk' : (0 : ℚ) ≤ (k : ℚ) := by exact_mod_cast hk
  have hq : 0 ≤ q := le_trans hk' h1
  simp only [truncate, if_pos hq]
  exact Int.floor_eq_iff.mpr ⟨h1, h2⟩

/-- The integer quotient `1000000 / t` lies below the exact quotient by less
than one, with a margin of `1 / t`. -/
theorem quotient_bounds (t : Int) (ht : 0 < t) :
    0 ≤ 1000000 / t ∧ 1000000 / t ≤ 1000000 ∧
      (((1000000 / t : Int)) : ℚ) ≤ 1000000 / (t : ℚ) ∧
      (1000000 : ℚ) / (t : ℚ) + 1 / (t : ℚ) ≤ (((1000000 / t : Int)) : ℚ) + 1 := by
  have htq : (0 : ℚ) < (t : ℚ) := by exact_mod_cast ht
  have h1 : 1000000 / t * t ≤ 1000000 := Int.ediv_mul_le 1000000 (ne_of_gt ht)
  have h2 : (1000000 : Int) < (1000000 / t + 1) * t := Int.lt_ediv_add_one_mul_self 1000000 ht
  have h3 : (0 : Int) ≤ 1000000 / t := Int.ediv_nonneg (by norm_num) (le_of_lt ht)
  have h4 : 1000000 / t ≤ (1000000 : Int) := Int.ediv_le_self t (by norm_num)
  refine ⟨h3, h4, ?_, ?_⟩
  · rw [le_div_iff₀ htq]
    exact_mod_cast h1
  · rw [← add_div, div_le_iff₀ htq]
    have h2' : (1000000 : Int) + 1 ≤ (1000000 / t + 1) * t := h2
    exact_mod_cast h2'

/-- The normal range of `double` holds every value between `1000000 / 2^53`
and `1000000`. -/
theorem normal_range (x : ℚ) (h1 : 1000000 / 2 ^ 53 ≤ x) (h2 : x ≤ 1000000) :
    1 / 2 ^ 1022 ≤ |x| ∧ |x| ≤ 2 ^ 1023 := by
  have hpos : (0 : ℚ) < 1000000 / 2 ^ 53 := by positivity
  have hx : 0 ≤ x := le_trans (le_of_lt hpos) h1
  rw [abs_of_nonneg hx]
  constructor
  · have ha : (1 : ℚ) / 2 ^ 1022 ≤ 1 / 2 ^ 53 :=
      one_div_le_one_div_of_le (by positivity) (pow_le_pow_right₀ (by norm_num) (by norm_num))
    have hb : (1 : ℚ) / 2 ^ 53 ≤ 1000000 / 2 ^ 53 :=
      div_le_div_of_nonneg_right (by norm_num) (by positivity)
    exact le_trans ha (le_trans hb h1)
  · have ha : (1000000 : ℚ) ≤ 2 ^ 20 := by norm_num
    have hb : (2 : ℚ) ^ 20 ≤ 2 ^ 1023 := pow_le_pow_right₀ (by norm_num) (by norm_num)
    exact le_trans h2 (le_trans ha hb)

/-- The value of `bandwidth` is the integer quotient `1000000 / total_time`,
whatever the rounding does within the properties of `RoundsToDouble`. -/
theorem bandwidth_eq_div (fl : ℚ → ℚ) (hfl : RoundsToDouble fl) (t : Int) (ht : 0 < t) :
    bandwidth fl t = 1000000 / t := by
  have htq : (0 : ℚ) < (t : ℚ) := by exact_mod_cast ht
  obtain ⟨hk0, hk1, hlow, hupp⟩ := quotient_bounds t ht
  unfold bandwidth
  by_cases hsmall : t ≤ 2 ^ 53
  · -- the conversion of `total_time` is exact
    have hflt : fl (t : ℚ) = (t : ℚ) := hfl.exact_int t (by rw [abs_of_pos ht]; exact hsmall)
    rw [hflt]
    have hflk : fl (((1000000 / t : Int)) : ℚ) = (((1000000 / t : Int)) : ℚ) :=
      hfl.exact_int _ (by rw [abs_of_nonneg hk0]; exact le_trans hk1 (by norm_num))
    have htq' : (t : ℚ) ≤ 2 ^ 53 := by exact_mod_cast hsmall
    have ht1 : (1 : ℚ) ≤ (t : ℚ) := by exact_mod_cast ht
    have hr1 : (1000000 : ℚ) / 2 ^ 53 ≤ 1000000 / (t : ℚ) :=
      div_le_div_of_nonneg_left (by norm_num) htq htq'
    have hr2 : (1000000 : ℚ) / (t : ℚ) ≤ 1000000 := div_le_self (by norm_num) ht1
    have hrpos : (0 : ℚ) ≤ 1000000 / (t : ℚ) := by positivity
    obtain ⟨hn1, hn2⟩ := normal_range _ hr1 hr2
    have herr := hfl.rel_error _ hn1 hn2
    rw [abs_of_nonneg hrpos] at herr
    have herr' : fl (1000000 / (t : ℚ)) ≤ 1000000 / (t : ℚ) + 1000000 / (t : ℚ) / 2 ^ 53 := by
      have := (abs_le.mp herr).2
      linarith
    have hmargin : (1000000 : ℚ) / (t : ℚ) / 2 ^ 53 < 1 / (t : ℚ) := by
      rw [div_div, div_lt_div_iff₀ (by positivity) htq]
      have : (1000000 : ℚ) < 2 ^ 53 := by norm_num
      nlinarith
    apply truncate_of_bounds _ _ hk0
    · calc (((1000000 / t : Int)) : ℚ) = fl (((1000000 / t : Int)) : ℚ) := hflk.symm
        _ ≤ fl (1000000 / (t : ℚ)) := hfl.mono _ _ hlow
    · linarith
  · -- `total_time` is above `2^53`: the quotient is below one
    have hbig : (2 : Int) ^ 53 ≤ t := le_of_lt (not_le.mp hsmall)
    have hbigq : ((2 ^ 53 : Int) : ℚ) ≤ (t : ℚ) := by exact_mod_cast hbig
    have hfl53 : fl ((2 ^ 53 : Int) : ℚ) = ((2 ^ 53 : Int) : ℚ) :=
      hfl.exact_int _ (by rw [abs_of_nonneg (by positivity)])
    have hflt : ((2 ^ 53 : Int) : ℚ) ≤ fl (t : ℚ) := by
      calc ((2 ^ 53 : Int) : ℚ) = fl ((2 ^ 53 : Int) : ℚ) := hfl53.symm
        _ ≤ fl (t : ℚ) := hfl.mono _ _ hbigq
    have hflt' : (2 : ℚ) ^ 53 ≤ fl (t : ℚ) := by
      have : ((2 ^ 53 : Int) : ℚ) = (2 : ℚ) ^ 53 := by norm_num
      rw [← this]
      exact hflt
    have hfltpos : (0 : ℚ) < fl (t : ℚ) := lt_of_lt_of_le (by positivity) hflt'
    have hr0 : (0 : ℚ) ≤ 1000000 / fl (t : ℚ) := by positivity
    have hr1 : (1000000 : ℚ) / fl (t : ℚ) ≤ 1000000 / 2 ^ 53 :=
      div_le_div_of_nonneg_left (by norm_num) (by positivity) hflt'
    have hfl0 : fl (0 : ℚ) = 0 := by
      have := hfl.exact_int 0 (by norm_num)
      simpa using this
    have hq0 : 0 ≤ fl (1000000 / fl (t : ℚ)) := by
      calc (0 : ℚ) = fl 0 := hfl0.symm
        _ ≤ fl (1000000 / fl (t : ℚ)) := hfl.mono _ _ hr0
    obtain ⟨hn1, hn2⟩ := normal_range (1000000 / 2 ^ 53) (le_refl _) (by norm_num)
    have herr := hfl.rel_error _ hn1 hn2
    have hx0 : (0 : ℚ) ≤ 1000000 / 2 ^ 53 := by positivity
    rw [abs_of_nonneg hx0] at herr
    have hq1 : fl (1000000 / fl (t : ℚ)) < 1 := by
      have h1 := hfl.mono _ _ hr1
      have h2 := (abs_le.mp herr).2
      have h3 : (1000000 : ℚ) / 2 ^ 53 + 1000000 / 2 ^ 53 / 2 ^ 53 < 1 := by norm_num
      linarith
    have hk : 1000000 / t = 0 :=
      Int.ediv_eq_zero_of_lt (by norm_num) (lt_of_lt_of_le (by norm_num) hbig)
    rw [hk]
    apply truncate_of_bounds _ 0 (le_refl _)
    · simpa using hq0
    · simpa using hq1

/-- C11, the bandwidth is the truncated reciprocal of the run time: for every
elapsed time `total_time > 0` in microseconds, the bandwidth that `main` prints
is the reciprocal of the run time in seconds truncated toward zero, that is the
integer quotient `1000000 / total_time`. -/
theorem bandwidth_reciprocal (fl : ℚ → ℚ) (hfl : RoundsToDouble fl) (begin endStamp : Int)
    (h : 0 < total_time begin endStamp) :
    bandwidth fl (total_time begin endStamp) = truncate (1 / runSeconds (total_time begin endStamp)) ∧
      bandwidth fl (total_time begin endStamp) = 1000000 / total_time begin endStamp ∧
      bandwidth fl (total_time begin endStamp) = Int.tdiv 1000000 (total_time begin endStamp) := by
  have htq : (0 : ℚ) < ((total_time begin endStamp : Int) : ℚ) := by exact_mod_cast h
  obtain ⟨hk0, -, hlow, hupp⟩ := quotient_bounds _ h
  have hdiv := bandwidth_eq_div fl hfl _ h
  have hrec : 1 / runSeconds (total_time begin endStamp)
      = 1000000 / ((total_time begin endStamp : Int) : ℚ) := by
    unfold runSeconds
    rw [one_div, inv_div]
  refine ⟨?_, hdiv, ?_⟩
  · rw [hdiv, hrec]
    symm
    apply truncate_of_bounds _ _ hk0 hlow
    have : (0 : ℚ) < 1 / ((total_time begin endStamp : Int) : ℚ) := by positivity
    linarith
  · rw [hdiv, Int.tdiv_eq_ediv (by norm_num) (le_of_lt h)]

/-- The C11 theorem for a run of 250000 microseconds from second 10
on, with a rounding that changes nothing. -/
theorem bandwidth_reciprocal_witness :
    RoundsToDouble (fun x : ℚ => x) ∧
      0 < total_time (timestamp 10 0) (timestamp 10 250000) ∧
      (bandwidth (fun x : ℚ => x) (total_time (timestamp 10 0) (timestamp 10 250000))
          = truncate (1 / runSeconds (total_time (timestamp 10 0) (timestamp 10 250000))) ∧
        bandwidth (fun x : ℚ => x) (total_time (timestamp 10 0) (timestamp 10 250000))
          = 1000000 / total_time (timestamp 10 0) (timestamp 10 250000) ∧
        bandwidth (fun x : ℚ => x) (total_time (timestamp 10 0) (timestamp 10 250000))
          = Int.tdiv 1000000 (total_time (timestamp 10 0) (timestamp 10 250000))) :=
  ⟨id_roundsToDouble, by decide,
    bandwidth_reciprocal (fun x : ℚ => x) id_roundsToDouble (timestamp 10 0) (timestamp 10 250000)
      (by decide)⟩

end GSoC15
